import Mathlib

/-!
Verification of the klasse-e conversion utilities.

The repository consists of four small scripts:
  * `konvertieren.js` — flattens a nested JSON question bank into one LaTeX
    fragment file per question (`traverse`, `escape`, `main`);
  * `50ohm_convert.js` — groups questions into LaTeX section files by a
    chapter/section key (`processConversionJob`, `generateLatexContent`);
  * `svg_dimension_parser.js` — extracts width/height from the root `<svg>`
    tag (`extractAttribute`, `getSvgDimensions`);
  * `svg_convert.sh` — a shell loop around an external converter (out of scope).

JavaScript values flowing through the scripts are modelled by the inductive
type `Json`; `undefined` is modelled as `Option.none` where it can occur.
JavaScript runtime behaviour relevant to the scripts (truthiness, template
literal stringification, iterability of spread, property access throwing on
`null`) is embedded explicitly.
-/

/-- A JSON-like JavaScript value.  Objects are entry lists in iteration
order; numbers are modelled as integers (no numeric computation occurs in
the scripts). -/
inductive Json where
  | null
  | bool (b : Bool)
  | num (n : Int)
  | str (s : String)
  | arr (elems : List Json)
  | obj (entries : List (String × Json))

/-- Replace every occurrence of the single character `c` by the character
list `r`.  For a single-character pattern this is exactly what the
JavaScript global regex replace `String.prototype.replace(/c/g, r)` does. -/
def replAll (c : Char) (r : List Char) : List Char → List Char
  | [] => []
  | x :: xs => (if x = c then r else [x]) ++ replAll c r xs

/-- The ordered replacement chain of `escape` in `konvertieren.js`
(lines 15–27): `&`, `%`, `#`, `_`, `{`, `}`, `~`, `^`, `"` in that exact
order, each later replacement running on the already-rewritten string. -/
def escapeText (text : String) : String :=
  let e1 := replAll '&' ['\\', '&'] text.data
  let e2 := replAll '%' ['\\', '%'] e1
  let e3 := replAll '#' ['\\', '#'] e2
  let e4 := replAll '_' ['\\', '_'] e3
  let e5 := replAll '\x7b' ['\\', '\x7b'] e4
  let e6 := replAll '\x7d' ['\\', '\x7d'] e5
  let e7 := replAll '~' "\\textasciitilde\x7b\x7d".data e6
  let e8 := replAll '^' "\\textasciicircum\x7b\x7d".data e7
  let e9 := replAll '"' ['"', '"'] e8
  String.mk e9

/-- `escape` from `konvertieren.js` (lines 11–28).  The argument is a
JavaScript value (possibly `undefined`, modelled as `none`); any
non-string argument yields the empty string. -/
def escape : Option Json → String
  | some (.str s) => escapeText s
  | _ => ""

/-- Spec-side table of the escaper ("§4.3 Text Escaper"): the ordered,
fixed sequence of literal substitutions, written as data. -/
def escapeTable : List (Char × String) :=
  [ ('&', "\\&"), ('%', "\\%"), ('#', "\\#"), ('_', "\\_"),
    ('\x7b', "\\\x7b"), ('\x7d', "\\\x7d"),
    ('~', "\\textasciitilde\x7b\x7d"), ('^', "\\textasciicircum\x7b\x7d"),
    ('"', "\"\"") ]

/-- One replacement pass: rewrite every occurrence of the character by the
replacement string. -/
def escStep (acc : String) (cr : Char × String) : String :=
  String.mk (replAll cr.1 cr.2.data acc.data)

/-- Spec-side escaper: fold the ordered replacement table over the input,
each replacement operating on the output of the previous one. -/
def specEscapeText (s : String) : String :=
  escapeTable.foldl escStep s

theorem escapeText_eq_spec (s : String) : escapeText s = specEscapeText s := by
  simp [escapeText, specEscapeText, escapeTable, escStep]

namespace Konvertieren

/-- Whether a JavaScript value can be spread by `push(...value)`
(`konvertieren.js` line 56): arrays spread into their elements, strings
spread into their code points (each a one-character string); everything
else throws a `TypeError`. -/
def spreadJs : Json → Option (List Json)
  | .arr xs => some xs
  | .str s => some (s.data.map fun c => Json.str (String.mk [c]))
  | _ => none

/-- `traverse` from `konvertieren.js` (lines 52–62), together with the
`allQuestions` accumulator it pushes into.  Objects are visited entry by
entry: an entry with key `questions` has its value spread into the result
(without recursing into it), every other entry is recursed into; arrays
are visited element by element (their `Object.entries` keys are numeric
strings, never `questions`); scalars and `null` contribute nothing.  A
non-spreadable value under a `questions` key is the thrown `TypeError`,
modelled as `Except.error`. -/
def traverse : Json → Except Unit (List Json)
  | .obj [] => .ok []
  | .obj ((k, v) :: rest) =>
      if k = "questions" then
        match spreadJs v with
        | none => .error ()
        | some xs => do
            let r ← traverse (.obj rest)
            pure (xs ++ r)
      else do
        let r1 ← traverse v
        let r2 ← traverse (.obj rest)
        pure (r1 ++ r2)
  | .arr [] => .ok []
  | .arr (x :: rest) => do
      let r1 ← traverse x
      let r2 ← traverse (.arr rest)
      pure (r1 ++ r2)
  | _ => .ok []

/-- The array under an array-valued node, if any. -/
def asArr : Json → Option (List Json)
  | .arr xs => some xs
  | _ => none

/-- Spec-side collector, following the claim's words: the arrays found
directly under a key exactly equal to `questions`, in depth-first
traversal order, not recursing into the elements of those arrays. -/
def specQuestionsArrays : Json → List (List Json)
  | .obj [] => []
  | .obj ((k, v) :: rest) =>
      (if k = "questions" then
        match asArr v with
        | some xs => [xs]
        | none => []
      else specQuestionsArrays v) ++ specQuestionsArrays (.obj rest)
  | .arr [] => []
  | .arr (x :: rest) => specQuestionsArrays x ++ specQuestionsArrays (.arr rest)
  | _ => []

/-- Well-formedness of an input for the Extractor: every value sitting
under a `questions` key at a position the traversal visits is an array. -/
def wfQuestions : Json → Bool
  | .obj [] => true
  | .obj ((k, v) :: rest) =>
      (if k = "questions" then (asArr v).isSome else wfQuestions v) &&
        wfQuestions (.obj rest)
  | .arr [] => true
  | .arr (x :: rest) => wfQuestions x && wfQuestions (.arr rest)
  | _ => true

theorem traverse_eq_spec : ∀ j : Json, wfQuestions j = true →
    traverse j = Except.ok (specQuestionsArrays j).flatten
  | .null, _ => by simp [traverse, specQuestionsArrays]
  | .bool _, _ => by simp [traverse, specQuestionsArrays]
  | .num _, _ => by simp [traverse, specQuestionsArrays]
  | .str _, _ => by simp [traverse, specQuestionsArrays]
  | .obj [], _ => by simp [traverse, specQuestionsArrays]
  | .arr [], _ => by simp [traverse, specQuestionsArrays]
  | .obj ((k, v) :: rest), h => by
      rw [wfQuestions, Bool.and_eq_true] at h
      obtain ⟨h1, h2⟩ := h
      by_cases hk : k = "questions"
      · subst hk
        rw [if_pos rfl] at h1
        cases v with
        | arr xs =>
            rw [traverse, specQuestionsArrays]
            simp [spreadJs, asArr, traverse_eq_spec (.obj rest) h2, Bind.bind, Except.bind, Pure.pure, Except.pure]
        | null => simp [asArr] at h1
        | bool b => simp [asArr] at h1
        | num n => simp [asArr] at h1
        | str s => simp [asArr] at h1
        | obj es => simp [asArr] at h1
      · rw [if_neg hk] at h1
        rw [traverse, specQuestionsArrays]
        simp [hk, traverse_eq_spec v h1, traverse_eq_spec (.obj rest) h2,
          Bind.bind, Except.bind, Pure.pure, Except.pure]
  | .arr (x :: rest), h => by
      rw [wfQuestions, Bool.and_eq_true] at h
      rw [traverse, specQuestionsArrays]
      simp [traverse_eq_spec x h.1, traverse_eq_spec (.arr rest) h.2,
        Bind.bind, Except.bind, Pure.pure, Except.pure]
termination_by j _ => sizeOf j

end Konvertieren

/-- Concrete Extractor input whose `questions` key holds a string: the
traversal spreads the string into its characters. -/
def strQuestionsInput : Json := Json.obj [("questions", Json.str "ab")]

/-- Example input from the spec: `{"a": {"questions": [1,2]}, "b": {"questions": [3]}}`. -/
def twoQuestionsInput : Json :=
  Json.obj [("a", Json.obj [("questions", Json.arr [Json.num 1, Json.num 2])]),
            ("b", Json.obj [("questions", Json.arr [Json.num 3])])]

/-- C1, counterexample: on the input `{"questions": "ab"}` the Extractor's
output is the two one-character strings `"a"`, `"b"` (the JavaScript spread
iterates the string), not the concatenation of the arrays found under
`questions` keys (there are none, so that concatenation is empty).  The
claim, quantified over every JSON-like input value, is therefore false. -/
theorem extractor_not_arrays_concat_on_string_questions :
    Konvertieren.traverse strQuestionsInput =
      Except.ok [Json.str "a", Json.str "b"] ∧
    (Konvertieren.specQuestionsArrays strQuestionsInput).flatten = [] ∧
    Konvertieren.traverse strQuestionsInput ≠
      Except.ok (Konvertieren.specQuestionsArrays strQuestionsInput).flatten := by
  refine ⟨?_, ?_, ?_⟩ <;>
    simp [strQuestionsInput, Konvertieren.traverse, Konvertieren.spreadJs,
      Konvertieren.specQuestionsArrays, Konvertieren.asArr,
      Bind.bind, Except.bind, Pure.pure, Except.pure]

/-- C1 (amended): for every JSON-like input value in which each value
sitting under a `questions` key at a visited position is an array, the
Extractor's output sequence is the concatenation, in depth-first traversal
order, of all arrays found directly under a key exactly equal to
`questions`; its length equals the sum of those arrays' lengths, elements
keep their relative order within and across arrays, and the elements of a
`questions` array are not themselves recursed into. -/
theorem extractor_flattens_questions_arrays (j : Json)
    (h : Konvertieren.wfQuestions j = true) :
    Konvertieren.traverse j =
      Except.ok (Konvertieren.specQuestionsArrays j).flatten ∧
    (Konvertieren.specQuestionsArrays j).flatten.length =
      ((Konvertieren.specQuestionsArrays j).map List.length).sum := by
  exact ⟨Konvertieren.traverse_eq_spec j h, by simp⟩

/-- C1, witness: on `{"a": {"questions": [1,2]}, "b": {"questions": [3]}}`
the hypothesis holds and the Extractor yields `[1, 2, 3]` of length `3`. -/
theorem extractor_flattens_questions_arrays_witness :
    Konvertieren.wfQuestions twoQuestionsInput = true ∧
    Konvertieren.traverse twoQuestionsInput =
      Except.ok [Json.num 1, Json.num 2, Json.num 3] := by
  have hwf : Konvertieren.wfQuestions twoQuestionsInput = true := by
    simp [twoQuestionsInput, Konvertieren.wfQuestions, Konvertieren.asArr]
  refine ⟨hwf, ?_⟩
  rw [(extractor_flattens_questions_arrays twoQuestionsInput hwf).1]
  simp [twoQuestionsInput, Konvertieren.specQuestionsArrays, Konvertieren.asArr]

theorem replAll_count_preserve (c : Char) (r : List Char) (a : Char)
    (h1 : c = a → r.count a = 1) (h2 : c ≠ a → a ∉ r) :
    ∀ l : List Char, (replAll c r l).count a = l.count a := by
  intro l
  induction l with
  | nil => rfl
  | cons x xs ih =>
    rw [replAll, List.count_append, ih]
    by_cases hx : x = c
    · subst hx
      rw [if_pos rfl]
      by_cases hxa : x = a
      · subst hxa
        rw [h1 rfl, List.count_cons_self]
        omega
      · rw [List.count_eq_zero_of_not_mem (h2 hxa), List.count_cons_of_ne ?_ xs]
        · omega
        · exact fun hEq => hxa hEq.symm
    · rw [if_neg hx, List.count_cons]
      by_cases hxa : x = a
      · subst hxa
        simp
        omega
      · have hbeq : (x == a) = false := by simp [hxa]
        simp [List.count_cons, hbeq]

theorem replAll_length_le (c : Char) (r : List Char) (h : 1 ≤ r.length) :
    ∀ l : List Char, l.length ≤ (replAll c r l).length := by
  intro l
  induction l with
  | nil => simp [replAll]
  | cons x xs ih =>
    rw [replAll, List.length_append]
    by_cases hx : x = c
    · rw [if_pos hx]
      simp only [List.length_cons]
      omega
    · rw [if_neg hx]
      simp only [List.length_cons, List.length_singleton]
      omega

theorem replAll_length_lt (c : Char) (r : List Char) (h : 2 ≤ r.length) :
    ∀ l : List Char, c ∈ l → l.length < (replAll c r l).length := by
  intro l hm
  induction l with
  | nil => cases hm
  | cons x xs ih =>
    rw [replAll, List.length_append]
    by_cases hx : x = c
    · have hle := replAll_length_le c r (by omega) xs
      rw [if_pos hx]
      simp only [List.length_cons]
      omega
    · have hmem : c ∈ xs := by
        cases hm with
        | head => exact absurd rfl hx
        | tail _ hmem => exact hmem
      have := ih hmem
      rw [if_neg hx]
      simp only [List.length_cons, List.length_singleton]
      omega

theorem escFold_length_le :
    ∀ (steps : List (Char × String)) (s : String),
    (∀ p ∈ steps, 1 ≤ p.2.data.length) →
    s.data.length ≤ (steps.foldl escStep s).data.length := by
  intro steps
  induction steps with
  | nil => intro s _; exact Nat.le_refl _
  | cons p rest ih =>
    intro s hs
    rw [List.foldl_cons]
    refine Nat.le_trans ?_ (ih (escStep s p) fun q hq => hs q (List.mem_cons_of_mem p hq))
    exact replAll_length_le p.1 p.2.data (hs p (List.mem_cons_self p rest)) s.data

theorem escFold_count (a : Char) :
    ∀ (steps : List (Char × String)) (s : String),
    (∀ p ∈ steps, (p.1 = a → p.2.data.count a = 1) ∧ (p.1 ≠ a → a ∉ p.2.data)) →
    (steps.foldl escStep s).data.count a = s.data.count a := by
  intro steps
  induction steps with
  | nil => intro s _; rfl
  | cons p rest ih =>
    intro s hs
    rw [List.foldl_cons,
      ih (escStep s p) fun q hq => hs q (List.mem_cons_of_mem p hq)]
    exact replAll_count_preserve p.1 p.2.data a
      (hs p (List.mem_cons_self p rest)).1 (hs p (List.mem_cons_self p rest)).2
      s.data

theorem specEscapeText_count_amp (s : String) :
    (specEscapeText s).data.count '&' = s.data.count '&' :=
  escFold_count '&' escapeTable s (by decide)

theorem specEscapeText_length_gt (s : String) (h : '&' ∈ s.data) :
    s.data.length < (specEscapeText s).data.length := by
  rw [specEscapeText, escapeTable, List.foldl_cons]
  refine Nat.lt_of_lt_of_le
    (replAll_length_lt '&' "\\&".data (by decide) s.data h) ?_
  exact escFold_length_le _ _ (by decide)

/-- C4: the escaper applies exactly the ordered literal replacement chain
`&`→`\&`, `%`→`\%`, `#`→`\#`, `_`→`\_`, `{`→`\{`, `}`→`\}`,
`~`→`\textasciitilde{}`, `^`→`\textasciicircum{}`, `"`→`""` in that order
(later substitutions operating on the already-partially-escaped string,
backslash never escaped) when the value is a string, and returns the empty
string without throwing for every non-string value. -/
theorem escape_chain_and_nonstring (s : String) (v : Option Json)
    (h : ∀ t : String, v ≠ some (Json.str t)) :
    escape (some (Json.str s)) = specEscapeText s ∧ escape v = "" := by
  constructor
  · show escapeText s = specEscapeText s
    exact escapeText_eq_spec s
  · cases v with
    | none => rfl
    | some j =>
      cases j with
      | str t => exact absurd rfl (h t)
      | null => rfl
      | bool b => rfl
      | num n => rfl
      | arr xs => rfl
      | obj es => rfl

/-- C4, witness: at the string `a&_\` and the non-string value `3` the
escaper follows the chain (the backslash passes through unescaped) and the
non-string value yields the empty string. -/
theorem escape_chain_and_nonstring_witness :
    (∀ t : String, (some (Json.num 3) : Option Json) ≠ some (Json.str t)) ∧
    escape (some (Json.str "a&_\\")) = specEscapeText "a&_\\" ∧
    escape (some (Json.str "a&_\\")) = "a\\&\\_\\" ∧
    escape (some (Json.num 3)) = "" := by
  have h : ∀ t : String, (some (Json.num 3) : Option Json) ≠ some (Json.str t) := by
    intro t hEq
    exact Json.noConfusion (Option.some.inj hEq)
  have hmain := escape_chain_and_nonstring "a&_\\" (some (Json.num 3)) h
  exact ⟨h, hmain.1, by decide, hmain.2⟩

/-- C5: the escaper is not idempotent: for every string containing the
character `&`, applying the escape chain twice differs from applying it
once (the `&` inside the inserted `\&` is escaped again). -/
theorem escape_not_idempotent_on_amp (s : String) (h : '&' ∈ s.data) :
    escape (some (Json.str (escape (some (Json.str s))))) ≠
      escape (some (Json.str s)) := by
  show escapeText (escapeText s) ≠ escapeText s
  rw [escapeText_eq_spec s, escapeText_eq_spec (specEscapeText s)]
  intro hEq
  have hcnt := specEscapeText_count_amp s
  have hmem : '&' ∈ (specEscapeText s).data := by
    rw [← List.count_pos_iff] at h ⊢
    omega
  have hlt := specEscapeText_length_gt (specEscapeText s) hmem
  rw [hEq] at hlt
  exact absurd hlt (Nat.lt_irrefl _)

/-- C5, witness: `escape("&") = "\&"` while `escape(escape("&")) = "\\&"`. -/
theorem escape_not_idempotent_on_amp_witness :
    ('&' ∈ "&".data) ∧
    escape (some (Json.str "&")) = "\\&" ∧
    escape (some (Json.str (escape (some (Json.str "&"))))) = "\\\\&" ∧
    escape (some (Json.str (escape (some (Json.str "&"))))) ≠
      escape (some (Json.str "&")) := by
  exact ⟨by decide, by decide, by decide,
    escape_not_idempotent_on_amp "&" (by decide)⟩

namespace FiftyOhm

/-- A question record as consumed by `50ohm_convert.js`: the `chapter` and
`section` fields enter the join key through template-literal
stringification, so they are modelled as the resulting strings; `number`
is the question identifier used in `generateLatexContent`. -/
structure QuestionRecord where
  chapter : String
  «section» : String
  number : String
deriving DecidableEq

/-- A section record: `chapter`/`section` as stringified for the key,
plus the human-readable `section_txt` title. -/
structure SectionRecord where
  chapter : String
  «section» : String
  section_txt : String
deriving DecidableEq

/-- The join key computed on the question side
(`50ohm_convert.js` line 89): the template literal
`` `${q.chapter}-${q.section}` ``. -/
def qKey (q : QuestionRecord) : String := q.chapter ++ "-" ++ q.«section»

/-- The join key computed on the section side (line 102). -/
def sKey (s : SectionRecord) : String := s.chapter ++ "-" ++ s.«section»

/-- One step of building `sectionQuestionsMap` (lines 91–94): if the key
is present, push the question onto its list in place; otherwise append a
new entry (JavaScript `Map` preserves insertion order).  Generic in the
question type: the record view and the raw-JSON view share it. -/
def addQuestion {α : Type} (m : List (String × List α)) (key : String)
    (q : α) : List (String × List α) :=
  match m with
  | [] => [(key, [q])]
  | (k, l) :: rest =>
      if k = key then (k, l ++ [q]) :: rest
      else (k, l) :: addQuestion rest key q

/-- `sectionQuestionsMap` (lines 86–95): fold the question sequence once,
grouping by the composite key. -/
def sectionQuestionsMap (questions : List QuestionRecord) :
    List (String × List QuestionRecord) :=
  questions.foldl (fun m q => addQuestion m (qKey q) q) []

/-- `Map.prototype.get`: the list stored under a key, or `undefined`. -/
def mapGet {α : Type} (m : List (String × List α)) (key : String) :
    Option (List α) :=
  match m with
  | [] => none
  | (k, l) :: rest => if k = key then some l else mapGet rest key

/-- The output unit emitted for a matched section (lines 105–121):
the `<chapter>S<section>` identifier, the section title and the matched
question list, in original question order. -/
structure SectionUnit where
  sektionID : String
  sektionTitle : String
  fragen : List QuestionRecord
deriving DecidableEq

/-- The section loop of `processConversionJob` (lines 100–127), viewed as
the sequence of output units it emits: sections are visited in original
order; a section whose key is absent from the map or maps to an empty
list is skipped without output or error. -/
def sectionUnits (questions : List QuestionRecord)
    (sections : List SectionRecord) : List SectionUnit :=
  sections.filterMap fun sektion =>
    match mapGet (sectionQuestionsMap questions) (sKey sektion) with
    | none => none
    | some fragenListe =>
        if fragenListe.length > 0 then
          some ⟨sektion.chapter ++ "S" ++ sektion.«section»,
                sektion.section_txt, fragenListe⟩
        else none

/-- Spec-side description of the Grouper: one unit per section having at
least one question whose key matches, the questions being exactly the
matching ones in original question order. -/
def specSectionUnits (questions : List QuestionRecord)
    (sections : List SectionRecord) : List SectionUnit :=
  sections.filterMap fun sektion =>
    let matched := questions.filter fun q => qKey q = sKey sektion
    if matched.length > 0 then
      some ⟨sektion.chapter ++ "S" ++ sektion.«section»,
            sektion.section_txt, matched⟩
    else none

theorem addQuestion_get_same {α : Type} (m : List (String × List α))
    (key : String) (q : α) :
    mapGet (addQuestion m key q) key =
      some ((mapGet m key).getD [] ++ [q]) := by
  induction m with
  | nil => simp [addQuestion, mapGet]
  | cons p rest ih =>
    obtain ⟨k, l⟩ := p
    by_cases hk : k = key
    · simp [addQuestion, mapGet, hk]
    · simp [addQuestion, mapGet, hk, ih]

theorem addQuestion_get_other {α : Type} (m : List (String × List α))
    (key k' : String) (q : α) (h : k' ≠ key) :
    mapGet (addQuestion m key q) k' = mapGet m k' := by
  induction m with
  | nil => simp [addQuestion, mapGet, Ne.symm h]
  | cons p rest ih =>
    obtain ⟨k, l⟩ := p
    by_cases hk : k = key
    · subst hk
      simp [addQuestion, mapGet, Ne.symm h]
    · by_cases hk' : k = k'
      · subst hk'
        simp [addQuestion, mapGet, hk]
      · simp [addQuestion, mapGet, hk, hk', ih]

theorem mapGet_foldl (qs : List QuestionRecord) :
    ∀ (m : List (String × List QuestionRecord)) (k : String),
    mapGet (qs.foldl (fun m q => addQuestion m (qKey q) q) m) k =
      match mapGet m k with
      | some l => some (l ++ qs.filter fun q => qKey q = k)
      | none =>
          if (qs.filter fun q => qKey q = k) = [] then none
          else some (qs.filter fun q => qKey q = k) := by
  induction qs with
  | nil =>
    intro m k
    cases hm : mapGet m k <;> simp [hm]
  | cons q rest ih =>
    intro m k
    rw [List.foldl_cons, ih (addQuestion m (qKey q) q) k]
    by_cases hk : qKey q = k
    · subst hk
      rw [addQuestion_get_same m (qKey q) q]
      have hfilter : ((q :: rest).filter fun p => qKey p = qKey q) =
          q :: (rest.filter fun p => qKey p = qKey q) := by
        simp [List.filter_cons]
      rw [hfilter]
      cases hm : mapGet m (qKey q) <;> simp
    · rw [addQuestion_get_other m (qKey q) k q (Ne.symm hk)]
      have hfilter : ((q :: rest).filter fun p => qKey p = k) =
          rest.filter fun p => qKey p = k := by
        simp [List.filter_cons, hk]
      rw [hfilter]

theorem mapGet_sectionQuestionsMap (qs : List QuestionRecord) (k : String) :
    mapGet (sectionQuestionsMap qs) k =
      if (qs.filter fun q => qKey q = k) = [] then none
      else some (qs.filter fun q => qKey q = k) := by
  rw [sectionQuestionsMap, mapGet_foldl qs [] k]
  rfl

/-- The questions the Grouper attaches to a section: the map entry for
the section's key, or the empty list when absent. -/
def matchedQuestions (qs : List QuestionRecord) (s : SectionRecord) :
    List QuestionRecord :=
  (mapGet (sectionQuestionsMap qs) (sKey s)).getD []

end FiftyOhm

/-- C2: for every pair of input sequences (questions, sections), the
Grouper emits one output unit per section record that has at least one
question with the matching composite key (the code's
`chapter + "-" + section` string), skipping non-matching sections with no
output and no error; output units appear in original section-sequence
order, and the questions inside each unit appear in original
question-sequence order, not sorted by question number. -/
theorem grouper_emits_matched_sections_in_order
    (qs : List FiftyOhm.QuestionRecord) (ss : List FiftyOhm.SectionRecord) :
    FiftyOhm.sectionUnits qs ss = FiftyOhm.specSectionUnits qs ss := by
  rw [FiftyOhm.sectionUnits, FiftyOhm.specSectionUnits]
  congr 1
  funext sektion
  rw [FiftyOhm.mapGet_sectionQuestionsMap]
  by_cases hf : (qs.filter fun q => FiftyOhm.qKey q = FiftyOhm.sKey sektion) = []
  · simp [hf]
  · have hlen : (qs.filter fun q =>
        FiftyOhm.qKey q = FiftyOhm.sKey sektion).length > 0 :=
      List.length_pos.mpr hf
    simp [hf, hlen]

/-- C3, counterexample: the code joins by the concatenated string
`chapter + "-" + section`, so the question with chapter `"1-2"`,
section `"3"` and the section with chapter `"1"`, section `"2-3"` share
the key `"1-2-3"` although their (chapter, section) pairs differ, and the
Grouper attaches that question to that section. -/
theorem grouper_key_collision :
    FiftyOhm.qKey ⟨"1-2", "3", "Q1"⟩ = FiftyOhm.sKey ⟨"1", "2-3", "T"⟩ ∧
    ("1-2", "3") ≠ ("1", "2-3") ∧
    FiftyOhm.sectionUnits [⟨"1-2", "3", "Q1"⟩] [⟨"1", "2-3", "T"⟩] =
      [⟨"1S2-3", "T", [⟨"1-2", "3", "Q1"⟩]⟩] := by
  refine ⟨by decide, by decide, ?_⟩
  decide

/-- C3 (amended): the Grouper joins a question record to a section record
if and only if the concatenated strings `chapter + "-" + section` of the
two records coincide.  Records with equal (chapter, section) pairs always
join, but distinct pairs can also join when a `-` inside a field value
makes the concatenations collide, so the key is not the pair compared by
value equality. -/
theorem grouper_join_iff_key_strings_equal
    (qs : List FiftyOhm.QuestionRecord) (s : FiftyOhm.SectionRecord)
    (q : FiftyOhm.QuestionRecord) :
    q ∈ FiftyOhm.matchedQuestions qs s ↔
      q ∈ qs ∧ FiftyOhm.qKey q = FiftyOhm.sKey s := by
  rw [FiftyOhm.matchedQuestions, FiftyOhm.mapGet_sectionQuestionsMap]
  by_cases hf : (qs.filter fun p => FiftyOhm.qKey p = FiftyOhm.sKey s) = []
  · rw [if_pos hf]
    simp only [Option.getD_none, List.not_mem_nil, false_iff]
    intro ⟨hmem, hkey⟩
    have : q ∈ qs.filter fun p => FiftyOhm.qKey p = FiftyOhm.sKey s := by
      rw [List.mem_filter]
      exact ⟨hmem, by simp [hkey]⟩
    rw [hf] at this
    exact absurd this (List.not_mem_nil q)
  · rw [if_neg hf]
    simp only [Option.getD_some, List.mem_filter, decide_eq_true_eq]

/-- C9: the Grouper is deterministic — it is a pure function of the two
input sequences, so two runs on equal question and section sequences
produce identical output sequences. -/
theorem grouper_deterministic
    (qs₁ qs₂ : List FiftyOhm.QuestionRecord)
    (ss₁ ss₂ : List FiftyOhm.SectionRecord)
    (hq : qs₁ = qs₂) (hs : ss₁ = ss₂) :
    FiftyOhm.sectionUnits qs₁ ss₁ = FiftyOhm.sectionUnits qs₂ ss₂ := by
  subst hq
  subst hs
  rfl

/-- C9, witness: two runs on the one-question, one-section input agree. -/
theorem grouper_deterministic_witness :
    FiftyOhm.sectionUnits [⟨"1", "1", "NA102"⟩] [⟨"1", "1", "Intro"⟩] =
      FiftyOhm.sectionUnits [⟨"1", "1", "NA102"⟩] [⟨"1", "1", "Intro"⟩] :=
  grouper_deterministic _ _ _ _ rfl rfl

namespace SvgParser

/-- ASCII whitespace, the `\s` class as used by the parser's regexes. -/
def jsIsWs (c : Char) : Bool :=
  c == ' ' || c == '\t' || c == '\n' || c == '\r' || c == '\x0b' || c == '\x0c'

/-- A quote character, single or double. -/
def isQuote (c : Char) : Bool := c == '"' || c == '\''

/-- Case-insensitive prefix test (the `i` regex flag). -/
def startsWithCI : List Char → List Char → Bool
  | [], _ => true
  | _ :: _, [] => false
  | p :: ps, c :: cs => p.toLower == c.toLower && startsWithCI ps cs

/-- Attempt the pattern `name\s*=\s*["']([^"']*)["']` at the start of the
suffix `l`, returning the captured group.  The pattern is deterministic:
`\s*` must stop at the `=` and the quotes, and `[^"']*` must stop at the
first quote, so maximal munch is exact. -/
def tryAttrAt (name : List Char) (l : List Char) : Option String :=
  if startsWithCI name l then
    let r1 := l.drop name.length
    match r1.dropWhile jsIsWs with
    | '=' :: r3 =>
      match r3.dropWhile jsIsWs with
      | q :: r5 =>
        if isQuote q then
          match r5.dropWhile (fun c => !isQuote c) with
          | _ :: _ => some (String.mk (r5.takeWhile (fun c => !isQuote c)))
          | [] => none
        else none
      | [] => none
    | _ => none
  else none

/-- Leftmost match: try the attribute pattern at every position, left to
right. -/
def findAttrScan (name : List Char) : List Char → Option String
  | [] => none
  | c :: rest =>
    match tryAttrAt name (c :: rest) with
    | some v => some v
    | none => findAttrScan name rest

/-- `extractAttribute` from `svg_dimension_parser.js` (lines 19–25): the
first match of the case-insensitive regex
`` `${attributeName}\s*=\s*["']([^"']*)["']` `` in the tag string, or
`null`. -/
def extractAttribute (tagString : String) (attributeName : String) :
    Option String :=
  findAttrScan attributeName.data tagString.data

/-- The suffix of the content starting at the first case-insensitive
occurrence of `<svg`. -/
def findTagStart : List Char → Option (List Char)
  | [] => none
  | c :: rest =>
    if startsWithCI "<svg".data (c :: rest) then some (c :: rest)
    else findTagStart rest

/-- The first match of `/<svg[^>]*>/i` (line 38): from the first `<svg`
up to and including the first following `>`, if any. -/
def findSvgTag (content : String) : Option String :=
  match findTagStart content.data with
  | none => none
  | some suf =>
    if '>' ∈ suf then some (String.mk (suf.takeWhile (fun c => c ≠ '>') ++ ['>']))
    else none

/-- JavaScript truthiness of a nullable string: `null` and the empty
string are falsy. -/
def jsTruthy (v : Option String) : Bool :=
  match v with
  | none => false
  | some s => !(s == "")

/-- One `foldr` step of regex splitting on runs of separators. -/
def splitStep (p : Char → Bool) (c : Char) (st : List (List Char) × Bool) :
    List (List Char) × Bool :=
  if p c then
    if st.2 then st else ([] :: st.1, true)
  else
    match st.1 with
    | [] => ([[c]], false)
    | t :: ts => ((c :: t) :: ts, false)

/-- `String.prototype.split(/[\s,]+/)` semantics: split on maximal runs
of separators, keeping an empty token before a leading run and after a
trailing run, with `[""]` for the empty string. -/
def splitRuns (p : Char → Bool) (s : List Char) : List (List Char) :=
  (s.foldr (splitStep p) ([[]], false)).1

/-- `String.prototype.trim()`. -/
def jsTrim (s : String) : String :=
  String.mk ((s.data.dropWhile jsIsWs).reverse.dropWhile jsIsWs).reverse

/-- `viewBox.trim().split(/[\s,]+/)` (line 61). -/
def viewBoxParts (s : String) : List String :=
  (splitRuns (fun c => jsIsWs c || c == ',') (jsTrim s).data).map String.mk

/-- The last `n` characters of a list. -/
def takeLastN (l : List Char) (n : Nat) : List Char := l.drop (l.length - n)

/-- Case-insensitive suffix test. -/
def endsWithCI (suf : List Char) (l : List Char) : Bool :=
  startsWithCI suf.reverse l.reverse

/-- The first (hence longest-suffix) match of `/(%|px|em|rem|pt|in)$/i`
(line 77), returning the matched text from the string itself. -/
def unitSuffix (w : String) : Option String :=
  if endsWithCI "rem".data w.data then some (String.mk (takeLastN w.data 3))
  else if endsWithCI "px".data w.data then some (String.mk (takeLastN w.data 2))
  else if endsWithCI "em".data w.data then some (String.mk (takeLastN w.data 2))
  else if endsWithCI "pt".data w.data then some (String.mk (takeLastN w.data 2))
  else if endsWithCI "in".data w.data then some (String.mk (takeLastN w.data 2))
  else if endsWithCI "%".data w.data then some (String.mk (takeLastN w.data 1))
  else none

/-- The dimensions object returned by `getSvgDimensions`; absent
JavaScript fields are `none`. -/
structure SvgDims where
  width : Option String
  height : Option String
  unit : Option String
  viewBox : Option String
  source : String
  message : Option String
deriving DecidableEq

/-- Result of `getSvgDimensions`: either the early error object or a
dimensions object. -/
inductive SvgResult where
  | err (msg : String)
  | ok (dims : SvgDims)
deriving DecidableEq

/-- `getSvgDimensions` from `svg_dimension_parser.js` (lines 36–91):
extract `width`/`height`/`viewBox` from the root tag; derive missing
(falsy) dimensions from a 4-token `viewBox` when at least one of
width/height is falsy; attach a unit; fall back to the warning object
when both dimensions end up `null`. -/
def getSvgDimensions (svgContent : String) : SvgResult :=
  match findSvgTag svgContent with
  | none => SvgResult.err "Could not find the root <svg> tag."
  | some rootTag =>
    let width := extractAttribute rootTag "width"
    let height := extractAttribute rootTag "height"
    let viewBox := extractAttribute rootTag "viewBox"
    let source0 :=
      if (jsTruthy width || jsTruthy height) = true then "attributes"
      else "none found"
    let deriveVb := ((!jsTruthy width || !jsTruthy height) && jsTruthy viewBox) &&
      (viewBoxParts (viewBox.getD "")).length == 4
    let width1 :=
      if (deriveVb && !jsTruthy width) = true then
        some ((viewBoxParts (viewBox.getD "")).getD 2 "")
      else width
    let height1 :=
      if (deriveVb && !jsTruthy height) = true then
        some ((viewBoxParts (viewBox.getD "")).getD 3 "")
      else height
    let unit1 := if deriveVb = true then "unitless (from viewBox)" else "unknown"
    let source1 := if deriveVb = true then "viewBox aspect ratio" else source0
    let unit2 :=
      if source1 = "attributes" ∧ jsTruthy width = true then
        (unitSuffix (width.getD "")).getD "unitless (default px)"
      else unit1
    if width1 = none ∧ height1 = none then
      SvgResult.ok ⟨none, none, none, viewBox, "none found",
        some "Warning: No explicit 'width', 'height', or derivable 'viewBox' found. SVG will likely scale to its container."⟩
    else
      SvgResult.ok ⟨width1, height1, some unit2, viewBox, source1, none⟩

end SvgParser

/-- C6, counterexample: on `<svg height="5" viewBox="0 0 3 4">` the height
attribute is present, yet the code derives the missing width from the
viewBox (the condition is `!width || !height`, not both-absent), and the
derived width is token 2 of the viewBox 0-indexed (`parts[2]`), not
token 3: with viewBox `0 0 100 50` the width becomes `"100"`, though
token 3 (0-indexed) is `"50"`.  Both parts of the claim are false. -/
theorem svg_derivation_not_only_when_both_absent :
    SvgParser.extractAttribute "<svg height=\"5\" viewBox=\"0 0 3 4\">" "height" =
      some "5" ∧
    SvgParser.getSvgDimensions "<svg height=\"5\" viewBox=\"0 0 3 4\">" =
      SvgParser.SvgResult.ok ⟨some "3", some "5", some "unitless (from viewBox)",
        some "0 0 3 4", "viewBox aspect ratio", none⟩ ∧
    SvgParser.getSvgDimensions "<svg viewBox=\"0 0 100 50\">" =
      SvgParser.SvgResult.ok ⟨some "100", some "50", some "unitless (from viewBox)",
        some "0 0 100 50", "viewBox aspect ratio", none⟩ ∧
    (SvgParser.viewBoxParts "0 0 100 50").getD 3 "" = "50" ∧
    (SvgParser.viewBoxParts "0 0 100 50").getD 2 "" ≠ "50" := by
  refine ⟨by decide, by decide, by decide, by decide, by decide⟩

/-- C6 (amended): the extractor derives dimensions from the viewBox when
at least one of the width/height attributes is missing or empty (JS-falsy)
and the viewBox attribute is present and non-empty; when the viewBox
splits into exactly 4 whitespace/comma-separated tokens, the falsy
dimensions are replaced by tokens 2 and 3 (0-indexed) of the viewBox, the
truthy ones are kept, and the reported unit is "unitless (from viewBox)"
with source "viewBox aspect ratio". -/
theorem svg_derives_from_viewbox
    (content rootTag : String) (w h : Option String) (vbs : String)
    (htag : SvgParser.findSvgTag content = some rootTag)
    (hw : SvgParser.extractAttribute rootTag "width" = w)
    (hh : SvgParser.extractAttribute rootTag "height" = h)
    (hv : SvgParser.extractAttribute rootTag "viewBox" = some vbs)
    (hmiss : SvgParser.jsTruthy w = false ∨ SvgParser.jsTruthy h = false)
    (hvb : vbs ≠ "")
    (hparts : (SvgParser.viewBoxParts vbs).length = 4) :
    SvgParser.getSvgDimensions content = SvgParser.SvgResult.ok
      ⟨(if SvgParser.jsTruthy w then w
        else some ((SvgParser.viewBoxParts vbs).getD 2 "")),
       (if SvgParser.jsTruthy h then h
        else some ((SvgParser.viewBoxParts vbs).getD 3 "")),
       some "unitless (from viewBox)", some vbs, "viewBox aspect ratio",
       none⟩ := by
  rw [SvgParser.getSvgDimensions, htag]
  simp only [hw, hh, hv, Option.getD_some]
  have hvb' : SvgParser.jsTruthy (some vbs) = true := by
    simp [SvgParser.jsTruthy, hvb]
  have hd : (((!SvgParser.jsTruthy w || !SvgParser.jsTruthy h) &&
      SvgParser.jsTruthy (some vbs)) &&
      ((SvgParser.viewBoxParts vbs).length == 4)) = true := by
    rcases hmiss with h1 | h1 <;> simp [h1, hvb', hparts]
  rw [hd]
  cases hjw : SvgParser.jsTruthy w with
  | true =>
    have hws : ∃ s, w = some s := by
      cases w with
      | none => simp [SvgParser.jsTruthy] at hjw
      | some s => exact ⟨s, rfl⟩
    obtain ⟨ws, rfl⟩ := hws
    cases hjh : SvgParser.jsTruthy h with
    | true =>
      rcases hmiss with h1 | h1
      · rw [hjw] at h1; cases h1
      · rw [hjh] at h1; cases h1
    | false => simp [hjw, hjh]
  | false =>
    cases hjh : SvgParser.jsTruthy h with
    | true =>
      have hhs : ∃ s, h = some s := by
        cases h with
        | none => simp [SvgParser.jsTruthy] at hjh
        | some s => exact ⟨s, rfl⟩
      obtain ⟨hs, rfl⟩ := hhs
      simp [hjw, hjh]
    | false => simp [hjw, hjh]

/-- C6, witness: on `<svg width="" viewBox="0,0,7,9">` the width attribute
is empty (falsy) and height is absent, so both dimensions are derived
from the comma-separated viewBox: tokens 2 and 3, `"7"` and `"9"`. -/
theorem svg_derives_from_viewbox_witness :
    SvgParser.jsTruthy (some "") = false ∧
    (SvgParser.viewBoxParts "0,0,7,9").length = 4 ∧
    SvgParser.getSvgDimensions "<svg width=\"\" viewBox=\"0,0,7,9\">" =
      SvgParser.SvgResult.ok ⟨some "7", some "9",
        some "unitless (from viewBox)", some "0,0,7,9",
        "viewBox aspect ratio", none⟩ := by
  refine ⟨by decide, by decide, ?_⟩
  have hmain := svg_derives_from_viewbox
    "<svg width=\"\" viewBox=\"0,0,7,9\">" "<svg width=\"\" viewBox=\"0,0,7,9\">"
    (some "") none "0,0,7,9"
    (by decide) (by decide) (by decide) (by decide)
    (Or.inl (by decide)) (by decide) (by decide)
  rw [hmain]
  decide

/-- C10: the attribute regex has no word boundary, so the lookup for
`width` matches the tail of `stroke-width`: on the root tag
`<svg stroke-width="2">` (which has no standalone `width` attribute — the
substring ` width=` does not occur) `extractAttribute` returns `"2"` and
`getSvgDimensions` reports width `"2"` with source `"attributes"`. -/
theorem svg_attribute_suffix_match :
    SvgParser.extractAttribute "<svg stroke-width=\"2\">" "width" = some "2" ∧
    ¬ List.IsInfix " width=".data "<svg stroke-width=\"2\">".data ∧
    SvgParser.getSvgDimensions "<svg stroke-width=\"2\">" =
      SvgParser.SvgResult.ok ⟨some "2", none, some "unitless (default px)",
        none, "attributes", none⟩ := by
  refine ⟨by decide, by decide, by decide⟩

/-- JavaScript property access `v[k]`: throws a `TypeError` on `null`,
returns `undefined` (`none`) on primitives and arrays (for the
non-numeric keys used by the scripts), and looks the key up on objects. -/
def jsGetField : Json → String → Except Unit (Option Json)
  | .null, _ => .error ()
  | .obj entries, k => .ok (entries.lookup k)
  | _, _ => .ok none

/-- The pure value of a property access that cannot throw (receiver not
`null`). -/
def jsField (q : Json) (k : String) : Option Json :=
  match q with
  | .obj entries => entries.lookup k
  | _ => none

/-- JavaScript truthiness of a value that may be `undefined` (`none`):
`undefined`, `null`, `false`, `0` and `""` are falsy; objects and arrays
are always truthy. -/
def jsTruthyVal : Option Json → Bool
  | none => false
  | some .null => false
  | some (.bool b) => b
  | some (.num n) => !(n == 0)
  | some (.str s) => !(s == "")
  | some (.arr _) => true
  | some (.obj _) => true

mutual

/-- Template-literal stringification `String(v)` of a defined value. -/
def jsToStringVal : Json → String
  | .null => "null"
  | .bool b => cond b "true" "false"
  | .num n => toString n
  | .str s => s
  | .obj _ => "[object Object]"
  | .arr xs => jsArrJoin xs
termination_by j => (sizeOf j, 1)

/-- `Array.prototype.toString`: elements joined with `,`. -/
def jsArrJoin : List Json → String
  | [] => ""
  | [x] => jsElemStr x
  | x :: y :: rest => jsElemStr x ++ "," ++ jsArrJoin (y :: rest)
termination_by xs => (sizeOf xs, 0)

/-- An array element inside a join: `null` renders as the empty string. -/
def jsElemStr : Json → String
  | .null => ""
  | .bool b => jsToStringVal (.bool b)
  | .num n => jsToStringVal (.num n)
  | .str s => jsToStringVal (.str s)
  | .obj es => jsToStringVal (.obj es)
  | .arr xs => jsToStringVal (.arr xs)
termination_by j => (sizeOf j, 2)

end

/-- Template-literal stringification `${v}` where `v` may be
`undefined`. -/
def jsToString : Option Json → String
  | none => "undefined"
  | some j => jsToStringVal j

/-- A console.error event produced by a run. -/
inductive LogEvent where
  | readError
  | schemaError
  | writeError (path : String)
deriving DecidableEq

/-- Observable outcome of a script run: an early `return` after a caught
error, an uncaught exception propagating out of the script, or normal
completion; each carries the files written (path, content) and the errors
logged, and completion carries the reported file count. -/
inductive RunOutcome where
  | earlyReturn (written : List (String × String)) (logs : List LogEvent)
  | thrown (written : List (String × String)) (logs : List LogEvent)
  | completed (written : List (String × String)) (logs : List LogEvent)
      (count : Nat)
deriving DecidableEq

namespace Konvertieren

/-- Render a boolean into a template literal, as `${hasPicture}` does. -/
def boolStr (b : Bool) : String := cond b "true" "false"

/-- The question fragment template of `konvertieren.js` (lines 79–88),
given the already-fetched field values: a leading newline, the
`\frage{...}` line, five indented argument lines and the two boolean
flags, with a trailing newline. -/
def fragTemplate (n qq a b c d : Option Json) (hp hpa : Bool) : String :=
  "\n\\frage\x7b" ++ escape n ++ "\x7d\n    \x7b" ++ escape qq ++
    "\x7d\n    \x7b" ++ escape a ++ "\x7d\n    \x7b" ++ escape b ++
    "\x7d\n    \x7b" ++ escape c ++ "\x7d\n    \x7b" ++ escape d ++
    "\x7d\n    \x7b" ++ boolStr hp ++ "\x7d\x7b" ++ boolStr hpa ++
    "\x7d\n"

/-- Building the LaTeX fragment for one question (lines 72–88): the
property accesses throw if the question value is `null`. -/
def latexFragment (question : Json) : Except Unit String := do
  let pq ← jsGetField question "picture_question"
  let pa ← jsGetField question "picture_a"
  let n ← jsGetField question "number"
  let qq ← jsGetField question "question"
  let a ← jsGetField question "answer_a"
  let b ← jsGetField question "answer_b"
  let c ← jsGetField question "answer_c"
  let d ← jsGetField question "answer_d"
  pure (fragTemplate n qq a b c d (jsTruthyVal pq) (jsTruthyVal pa))

/-- The fragment of a non-`null` question, as a pure value. -/
def fragmentOf (q : Json) : String :=
  fragTemplate (jsField q "number") (jsField q "question")
    (jsField q "answer_a") (jsField q "answer_b") (jsField q "answer_c")
    (jsField q "answer_d") (jsTruthyVal (jsField q "picture_question"))
    (jsTruthyVal (jsField q "picture_a"))

/-- The output path of a non-`null` question:
`path.join('tex_fragen', `${question.number}.tex`)`. -/
def pathOf (q : Json) : String :=
  "tex_fragen/" ++ jsToString (jsField q "number") ++ ".tex"

/-- The content written for a non-`null` question: the trimmed fragment
(line 93, `latexFragment.trim()`). -/
def contentOf (q : Json) : String := SvgParser.jsTrim (fragmentOf q)

/-- The per-question write loop of `main` (lines 70–98): fragment
construction and the `${question.number}` file name are computed outside
any `try`, so a `null` question throws out of the whole loop; only
`writeFileSync` sits in the `try`, a failed write is logged and the loop
continues.  The error value and the result both carry the files written
and the write errors logged; the result also carries `filesCreated`. -/
def writeLoop (writeOk : String → Bool) :
    List Json →
      Except (List (String × String) × List LogEvent)
        (List (String × String) × List LogEvent × Nat)
  | [] => .ok ([], [], 0)
  | q :: rest =>
    match latexFragment q with
    | .error _ => .error ([], [])
    | .ok frag =>
      match jsGetField q "number" with
      | .error _ => .error ([], [])
      | .ok numberVal =>
        let filePath := "tex_fragen/" ++ jsToString numberVal ++ ".tex"
        if writeOk filePath then
          match writeLoop writeOk rest with
          | .ok (w, lg, n) => .ok ((filePath, SvgParser.jsTrim frag) :: w, lg, n + 1)
          | .error (w, lg) => .error ((filePath, SvgParser.jsTrim frag) :: w, lg)
        else
          match writeLoop writeOk rest with
          | .ok (w, lg, n) => .ok (w, LogEvent.writeError filePath :: lg, n)
          | .error (w, lg) => .error (w, LogEvent.writeError filePath :: lg)

/-- `main` from `konvertieren.js` (lines 32–101), with the filesystem
abstracted: `readRes` is the result of `readFileSync` (`none` = throw),
`parse` the behaviour of `JSON.parse`, `writeOk` the per-path success of
`writeFileSync`.  Read and parse run inside one `try` whose catch logs
and returns; a `TypeError` from `traverse` or from a `null` question is
uncaught. -/
def main (readRes : Option String) (parse : String → Option Json)
    (writeOk : String → Bool) : RunOutcome :=
  match readRes with
  | none => .earlyReturn [] [LogEvent.readError]
  | some fileContent =>
    match parse fileContent with
    | none => .earlyReturn [] [LogEvent.readError]
    | some allQuestionsRaw =>
      match traverse allQuestionsRaw with
      | .error _ => .thrown [] []
      | .ok allQuestions =>
        match writeLoop writeOk allQuestions with
        | .ok (w, lg, n) => .completed w lg n
        | .error (w, lg) => .thrown w lg

end Konvertieren

namespace FiftyOhm

/-- `Map`-building step over raw JSON questions, with the key from
template-literal stringification (lines 88–95); a `null` question throws
on the `q.chapter` access. -/
def buildMap (questions : List Json) (m : List (String × List Json)) :
    Except Unit (List (String × List Json)) :=
  match questions with
  | [] => .ok m
  | q :: rest =>
    match jsGetField q "chapter" with
    | .error _ => .error ()
    | .ok ch =>
      match jsGetField q "section" with
      | .error _ => .error ()
      | .ok sec =>
        buildMap rest (addQuestion m (jsToString ch ++ "-" ++ jsToString sec) q)

/-- The `\input` lines of `generateLatexContent` (lines 38–46). -/
def inputLines : List Json → Except Unit String
  | [] => .ok ""
  | frage :: rest =>
    match jsGetField frage "number" with
    | .error _ => .error ()
    | .ok frageID => do
      let r ← inputLines rest
      pure ("    \\input\x7btex_fragen/" ++ jsToString frageID ++ ".tex\x7d\n"
        ++ r)

/-- `generateLatexContent` (lines 35–50): a `description` environment
around one `\input` line per question. -/
def generateLatexContent (fragenListe : List Json) : Except Unit String := do
  let body ← inputLines fragenListe
  pure ("\\begin\x7bdescription\x7d\n" ++ body ++ "\\end\x7bdescription\x7d\n")

/-- The section loop (lines 100–127).  `writeFileSync` (line 124) is not
inside any `try`, so a failed write throws out of the loop; the error
value carries the files already written in this loop. -/
def sectionLoop (writeOk : String → Bool) (m : List (String × List Json)) :
    List Json →
      Except (List (String × String)) (List (String × String) × Nat)
  | [] => .ok ([], 0)
  | sektion :: rest =>
    match jsGetField sektion "chapter" with
    | .error _ => .error []
    | .ok ch =>
      match jsGetField sektion "section" with
      | .error _ => .error []
      | .ok sec =>
        match mapGet m (jsToString ch ++ "-" ++ jsToString sec) with
        | none => sectionLoop writeOk m rest
        | some fragenListe =>
          if fragenListe.length > 0 then
            match jsGetField sektion "section_txt" with
            | .error _ => .error []
            | .ok title =>
              match generateLatexContent fragenListe with
              | .error _ => .error []
              | .ok latexContent =>
                let filePath := "tex_sections/" ++
                  (jsToString ch ++ "S" ++ jsToString sec) ++ ".tex"
                let finalContent := "% Kapitel " ++ jsToString ch ++
                  ", Sektion " ++ jsToString sec ++ ": " ++ jsToString title ++
                  "\n\n" ++ latexContent
                if writeOk filePath then
                  match sectionLoop writeOk m rest with
                  | .ok (w, n) => .ok ((filePath, finalContent) :: w, n + 1)
                  | .error w => .error ((filePath, finalContent) :: w)
                else .error []
          else sectionLoop writeOk m rest

/-- `processConversionJob` from `50ohm_convert.js` (lines 56–130), with
the filesystem abstracted as in `Konvertieren.main`.  Only
`fs.readFileSync` sits in a `try` (lines 66–71); `JSON.parse` runs after
it, outside any `try`, so invalid JSON throws uncaught.  The schema check
(line 76) logs and returns early; `forEach` on a non-array and property
access on `null` throw. -/
def processConversionJob (readRes : Option String)
    (parse : String → Option Json) (writeOk : String → Bool) : RunOutcome :=
  match readRes with
  | none => .earlyReturn [] [LogEvent.readError]
  | some rawData =>
    match parse rawData with
    | none => .thrown [] []
    | some data =>
      match jsGetField data "sections", jsGetField data "questions" with
      | .error _, _ => .thrown [] []
      | .ok _, .error _ => .thrown [] []
      | .ok sectionsV, .ok questionsV =>
        if !jsTruthyVal sectionsV || !jsTruthyVal questionsV then
          .earlyReturn [] [LogEvent.schemaError]
        else
          match sectionsV, questionsV with
          | some (.arr sections), some (.arr questions) =>
            (match buildMap questions [] with
             | .error _ => .thrown [] []
             | .ok m =>
               match sectionLoop writeOk m sections with
               | .ok (w, n) => .completed w [] n
               | .error w => .thrown w [])
          | _, _ => .thrown [] []

end FiftyOhm

/-- C7, counterexample: in the Grouper converter (`50ohm_convert.js`),
`JSON.parse` runs outside the `try` that guards only `readFileSync`, so
on an invalid-JSON primary input the job neither logs nor returns early:
the parse exception propagates uncaught (outcome `thrown`, no log),
unlike the logged early return the claim requires for every converter. -/
theorem grouper_parse_failure_uncaught :
    FiftyOhm.processConversionJob (some "not json") (fun _ => none)
      (fun _ => true) = RunOutcome.thrown [] [] ∧
    RunOutcome.thrown ([] : List (String × String)) ([] : List LogEvent) ≠
      RunOutcome.earlyReturn [] [LogEvent.readError] := by
  exact ⟨by decide, by decide⟩

/-- C7 (amended): on an invalid-JSON primary input the Extractor
converter (`konvertieren.js`) logs an error and returns early from the
run, because read and parse share one `try`; the Grouper converter
(`50ohm_convert.js`) catches only the read, so there the parse failure
propagates as an uncaught exception instead of a logged early return. -/
theorem parse_failure_handling (raw : String) (parse : String → Option Json)
    (writeOk : String → Bool) (hp : parse raw = none) :
    Konvertieren.main (some raw) parse writeOk =
      RunOutcome.earlyReturn [] [LogEvent.readError] ∧
    FiftyOhm.processConversionJob (some raw) parse writeOk =
      RunOutcome.thrown [] [] := by
  constructor
  · rw [Konvertieren.main, hp]
  · rw [FiftyOhm.processConversionJob, hp]

/-- C7, witness: a run whose `JSON.parse` always fails. -/
theorem parse_failure_handling_witness :
    ((fun _ : String => (none : Option Json)) "oops" = none) ∧
    Konvertieren.main (some "oops") (fun _ => none) (fun _ => true) =
      RunOutcome.earlyReturn [] [LogEvent.readError] ∧
    FiftyOhm.processConversionJob (some "oops") (fun _ => none)
      (fun _ => true) = RunOutcome.thrown [] [] := by
  refine ⟨rfl, ?_, ?_⟩
  · exact (parse_failure_handling "oops" (fun _ => none) (fun _ => true) rfl).1
  · exact (parse_failure_handling "oops" (fun _ => none) (fun _ => true) rfl).2

theorem jsGetField_ok (q : Json) (hq : q ≠ Json.null) (k : String) :
    jsGetField q k = Except.ok (jsField q k) := by
  cases q with
  | null => exact absurd rfl hq
  | bool b => rfl
  | num n => rfl
  | str s => rfl
  | arr xs => rfl
  | obj es => rfl

theorem latexFragment_ok (q : Json) (hq : q ≠ Json.null) :
    Konvertieren.latexFragment q = Except.ok (Konvertieren.fragmentOf q) := by
  rw [Konvertieren.latexFragment]
  rw [jsGetField_ok q hq "picture_question", jsGetField_ok q hq "picture_a",
    jsGetField_ok q hq "number", jsGetField_ok q hq "question",
    jsGetField_ok q hq "answer_a", jsGetField_ok q hq "answer_b",
    jsGetField_ok q hq "answer_c", jsGetField_ok q hq "answer_d"]
  rfl

theorem writeLoop_ok (writeOk : String → Bool) :
    ∀ qs : List Json, (∀ q ∈ qs, q ≠ Json.null) →
    Konvertieren.writeLoop writeOk qs = Except.ok
      (qs.filterMap fun q =>
        if writeOk (Konvertieren.pathOf q) then
          some (Konvertieren.pathOf q, Konvertieren.contentOf q)
        else none,
       qs.filterMap fun q =>
        if writeOk (Konvertieren.pathOf q) then none
        else some (LogEvent.writeError (Konvertieren.pathOf q)),
       (qs.filter fun q => writeOk (Konvertieren.pathOf q)).length) := by
  intro qs
  induction qs with
  | nil => intro _; rfl
  | cons q rest ih =>
    intro hq
    have hqn : q ≠ Json.null := hq q (List.mem_cons_self q rest)
    have hrest := ih fun p hp => hq p (List.mem_cons_of_mem q hp)
    rw [Konvertieren.writeLoop, latexFragment_ok q hqn,
      jsGetField_ok q hqn "number", hrest]
    have hpath : ∀ p : Json,
        "tex_fragen/" ++ jsToString (jsField p "number") ++ ".tex" =
          Konvertieren.pathOf p := fun _ => rfl
    have hcontent : ∀ p : Json,
        SvgParser.jsTrim (Konvertieren.fragmentOf p) =
          Konvertieren.contentOf p := fun _ => rfl
    simp only [hpath, hcontent, List.filterMap_cons, List.filter_cons]
    by_cases hw : writeOk (Konvertieren.pathOf q)
    · simp [hw]
    · simp [hw]

/-- Grouper input with two matched sections; used to exhibit the
write-failure behaviour. -/
def twoSectionData : Json := Json.obj [
  ("sections", Json.arr [
    Json.obj [("chapter", Json.str "1"), ("section", Json.str "1"),
      ("section_txt", Json.str "X")],
    Json.obj [("chapter", Json.str "2"), ("section", Json.str "2"),
      ("section_txt", Json.str "Y")]]),
  ("questions", Json.arr [
    Json.obj [("chapter", Json.str "1"), ("section", Json.str "1"),
      ("number", Json.str "A1")],
    Json.obj [("chapter", Json.str "2"), ("section", Json.str "2"),
      ("number", Json.str "B1")]])]

/-- A filesystem on which writing the first section file fails. -/
def failFirstSectionWrite (p : String) : Bool := !(p == "tex_sections/1S1.tex")

/-- C8, counterexample: in the Grouper converter the `writeFileSync` of a
section file is not inside any `try`; when writing `1S1.tex` fails, the
exception propagates (outcome `thrown`, nothing logged) and the remaining
section `2S2.tex` — whose write would have succeeded — is never
processed, contradicting the per-item catch-log-continue the claim
states for both converters. -/
theorem grouper_write_failure_aborts :
    FiftyOhm.processConversionJob (some "raw") (fun _ => some twoSectionData)
      failFirstSectionWrite = RunOutcome.thrown [] [] ∧
    failFirstSectionWrite "tex_sections/2S2.tex" = true := by
  constructor
  · simp [twoSectionData, FiftyOhm.processConversionJob,
      FiftyOhm.buildMap, FiftyOhm.sectionLoop, FiftyOhm.addQuestion,
      FiftyOhm.mapGet, FiftyOhm.generateLatexContent, FiftyOhm.inputLines,
      jsGetField, jsTruthyVal, jsToString, jsToStringVal,
      failFirstSectionWrite, List.lookup]
  · decide

/-- C8 (amended): in the Extractor converter (`konvertieren.js`) each
question's `writeFileSync` sits in its own `try`: a failed write is
caught individually, logged as a write error, and the remaining questions
are still processed — the run completes, exactly the questions on
writable paths are written (in order), exactly the failed paths are
logged, and the reported count is the number of successful writes.  In
the Grouper converter the section-file write is not guarded, so a failure
there aborts the remaining sections (see the counterexample). -/
theorem extractor_write_failures_isolated
    (raw : String) (parse : String → Option Json) (writeOk : String → Bool)
    (j : Json) (qs : List Json)
    (hp : parse raw = some j) (ht : Konvertieren.traverse j = Except.ok qs)
    (hq : ∀ q ∈ qs, q ≠ Json.null) :
    Konvertieren.main (some raw) parse writeOk = RunOutcome.completed
      (qs.filterMap fun q =>
        if writeOk (Konvertieren.pathOf q) then
          some (Konvertieren.pathOf q, Konvertieren.contentOf q)
        else none)
      (qs.filterMap fun q =>
        if writeOk (Konvertieren.pathOf q) then none
        else some (LogEvent.writeError (Konvertieren.pathOf q)))
      (qs.filter fun q => writeOk (Konvertieren.pathOf q)).length := by
  rw [Konvertieren.main, hp]
  simp only [ht, writeLoop_ok writeOk qs hq]

/-- Extractor input with two questions, `A1` and `B1`. -/
def twoQuestionInput : Json := Json.obj [("questions", Json.arr [
  Json.obj [("number", Json.str "A1")], Json.obj [("number", Json.str "B1")]])]

/-- A filesystem on which writing `A1.tex` fails. -/
def failFirstQuestionWrite (p : String) : Bool := !(p == "tex_fragen/A1.tex")

/-- C8, witness: with two questions and a filesystem that rejects
`A1.tex`, the Extractor run still completes: the failure is logged, and
`B1.tex` is written, with a reported count of 1. -/
theorem extractor_write_failures_isolated_witness :
    Konvertieren.traverse twoQuestionInput = Except.ok
      [Json.obj [("number", Json.str "A1")],
       Json.obj [("number", Json.str "B1")]] ∧
    Konvertieren.main (some "raw") (fun _ => some twoQuestionInput)
      failFirstQuestionWrite = RunOutcome.completed
      [("tex_fragen/B1.tex",
        Konvertieren.contentOf (Json.obj [("number", Json.str "B1")]))]
      [LogEvent.writeError "tex_fragen/A1.tex"] 1 := by
  have ht : Konvertieren.traverse twoQuestionInput = Except.ok
      [Json.obj [("number", Json.str "A1")],
       Json.obj [("number", Json.str "B1")]] := by
    simp [twoQuestionInput, Konvertieren.traverse, Konvertieren.spreadJs,
      Bind.bind, Except.bind, Pure.pure, Except.pure]
  refine ⟨ht, ?_⟩
  rw [extractor_write_failures_isolated "raw" (fun _ => some twoQuestionInput)
    failFirstQuestionWrite twoQuestionInput
    [Json.obj [("number", Json.str "A1")], Json.obj [("number", Json.str "B1")]]
    rfl ht (by simp)]
  simp [Konvertieren.pathOf, jsField, jsToString, jsToStringVal,
    failFirstQuestionWrite, List.lookup]
